import Mathlib

/-!
Shallow embedding of the eKoNLPy sentiment core:
`ekonlpy/sentiment/base.py` (class `BaseDict`: `_get_score`, `get_score`,
`__init__`) and `ekonlpy/sentiment/mpko.py` (class `MPKO`: `init_dict`).

Python dictionaries are modelled as association lists where insertion
prepends and lookup returns the first (i.e. most recent) binding, which
matches overwrite-on-assignment semantics.  Python floats are modelled as
rationals; `float(str)` is modelled on plain decimal literals (optional
sign, digits, optional fractional part), which covers every value the
lexicon format uses.  A lexicon file is a list of its lines (without the
trailing newline, which Python's `.strip()` removes from the last field
anyway).
-/

namespace Ekonlpy

/-- Decidable equality for `Except`, so that concrete runs of the loader can
be checked by `decide`. -/
instance {ε α : Type} [DecidableEq ε] [DecidableEq α] : DecidableEq (Except ε α) := fun a b =>
  match a, b with
  | .error e, .error f => decidable_of_iff (e = f) (by simp)
  | .error _, .ok _ => .isFalse (fun h => Except.noConfusion h)
  | .ok _, .error _ => .isFalse (fun h => Except.noConfusion h)
  | .ok x, .ok y => decidable_of_iff (x = y) (by simp)

/-- A Python `dict` from term to number: later insertions shadow earlier ones. -/
abbrev Table := List (String × ℚ)

/-- Python `d[k]` / `k in d.keys()` lookup: first binding wins. -/
def lookupT : Table → String → Option ℚ
  | [], _ => none
  | (k, v) :: rest, t => if t = k then some v else lookupT rest t

/-- The three tables `_posdict`, `_negdict`, `_poldict` of `BaseDict`. -/
structure DictState where
  posdict : Table
  negdict : Table
  poldict : Table
deriving DecidableEq

/-- The state of a fresh `BaseDict` before `init_dict` runs (three empty dicts). -/
def initState : DictState := ⟨[], [], []⟩

/-- `BaseDict.EPSILON = 1e-6`. -/
def EPSILON : ℚ := 1 / 1000000

/-- `BaseDict._get_score(term, by_count)`: positive lookup first, then negative,
else 0 in count mode; polarity lookup else 0 in polarity mode. -/
def get_score_term (st : DictState) (term : String) (by_count : Bool) : ℚ :=
  if by_count then
    match lookupT st.posdict term with
    | some v => v
    | none =>
      match lookupT st.negdict term with
      | some v => v
      | none => 0
  else
    match lookupT st.poldict term with
    | some v => v
    | none => 0

/-- The result dictionary of `BaseDict.get_score` with its four tagged entries. -/
structure Scores where
  Positive : ℚ
  Negative : ℚ
  Polarity : ℚ
  Subjectivity : ℚ
deriving DecidableEq

/-- `BaseDict.get_score(terms, by_count)`: per-token scores, the positive and
negative sublists, their sums, and the Polarity/Subjectivity ratios. -/
def get_score (st : DictState) (terms : List String) (by_count : Bool) : Scores :=
  let score_li := terms.map (fun t => get_score_term st t by_count)
  let pos_score_li := score_li.filter (fun s => decide (0 < s))
  let neg_score_li := score_li.filter (fun s => decide (s < 0))
  let s_pos := pos_score_li.sum
  let s_neg := neg_score_li.sum
  let s_pol := (s_pos + s_neg) /
      ((if by_count then s_pos - s_neg else (score_li.length : ℚ)) + EPSILON)
  let s_sub := ((pos_score_li.length : ℚ) + (neg_score_li.length : ℚ)) /
      ((score_li.length : ℚ) + EPSILON)
  ⟨s_pos, s_neg, s_pol, s_sub⟩

/-- The whitespace set stripped by Python's `str.strip()`. -/
def isPyWs (c : Char) : Bool :=
  c = ' ' || c = '\t' || c = '\n' || c = '\r' || c = '\x0b' || c = '\x0c'

/-- Python `str.strip()`: drop whitespace from both ends. -/
def pyStrip (s : String) : String :=
  String.mk (((s.toList.dropWhile isPyWs).reverse.dropWhile isPyWs).reverse)

/-- Helper for `splitComma`: accumulate the current field (reversed). -/
def splitCommaAux : List Char → List Char → List (List Char)
  | [], acc => [acc.reverse]
  | c :: rest, acc =>
    if c = ',' then acc.reverse :: splitCommaAux rest []
    else splitCommaAux rest (c :: acc)

/-- Python `line.split(',')`: split at every comma; `"".split(',') == [""]`. -/
def splitComma (s : String) : List String :=
  (splitCommaAux s.toList []).map String.mk

/-- Numeric value of a digit string (most significant first). -/
def digitsVal (l : List Char) : ℕ :=
  l.foldl (fun a c => 10 * a + (c.toNat - 48)) 0

/-- Unsigned part of Python `float()` on a decimal literal: digits `ip` with
an optional fractional part `fp`; at least one digit overall.  The value
`ip + fp / 10 ^ len(fp)` is assembled as the single exact quotient
`(ip * 10 ^ len(fp) + fp) / 10 ^ len(fp)` via `mkRat` (`Rat.mkRat_eq_div`),
so that the definition evaluates by kernel reduction. -/
def parseUFloat (cs : List Char) : Option ℚ :=
  let ip := cs.takeWhile Char.isDigit
  let rest := cs.dropWhile Char.isDigit
  match rest with
  | [] => if ip.isEmpty then none else some (digitsVal ip : ℚ)
  | '.' :: fp =>
    if ip.isEmpty && fp.isEmpty then none
    else if fp.all Char.isDigit then
      some (mkRat (digitsVal ip * 10 ^ fp.length + digitsVal fp) (10 ^ fp.length))
    else none
  | _ => none

/-- Python `float(s)` on decimal literals, `none` on a malformed field
(which in Python raises `ValueError`). -/
def pyFloat (s : String) : Option ℚ :=
  match s.toList with
  | '-' :: rest => (parseUFloat rest).map (fun q => -q)
  | '+' :: rest => parseUFloat rest
  | cs => parseUFloat cs

/-- The exceptions `MPKO.init_dict` can raise: `FileNotFoundError` from
`open`, `IndexError` from `word[1]`/`word[2]`, `ValueError` from `float`. -/
inductive LoadError
  | fileNotFound
  | indexError
  | parseError
deriving DecidableEq

/-- One iteration of the `for line in f` loop of `MPKO.init_dict`:
split on commas, skip the header word, parse both numeric fields
(before the length filter, as the code does), then update the tables. -/
def loadLine (st : DictState) (line : String) : Except LoadError DictState :=
  let word := splitComma line
  let w := word.headD ""
  if w = "word" then .ok st
  else
    match word[1]? with
    | none => .error .indexError
    | some f1 =>
      match pyFloat (pyStrip f1) with
      | none => .error .parseError
      | some p =>
        match word[2]? with
        | none => .error .indexError
        | some f2 =>
          match pyFloat (pyStrip f2) with
          | none => .error .parseError
          | some s =>
            .ok (if w.length > 1 then
                  { poldict := (w, s) :: st.poldict
                    posdict := if 0 < p then (w, 1) :: st.posdict else st.posdict
                    negdict := if 0 < p then st.negdict
                               else if p < 0 then (w, -1) :: st.negdict
                               else st.negdict }
                 else st)

/-- The whole `for line in f` loop, aborting at the first exception. -/
def loadLines : DictState → List String → Except LoadError DictState
  | st, [] => .ok st
  | st, l :: rest =>
    match loadLine st l with
    | .error e => .error e
    | .ok st' => loadLines st' rest

/-- `MPKO.init_dict` run on the lexicon file's lines starting from empty
tables; `none` models a missing lexicon file (`open` raises). -/
def init_dict : Option (List String) → Except LoadError DictState
  | none => .error .fileNotFound
  | some lines => loadLines initState lines

/-- Errors surfaced by `BaseDict.__init__`: a load exception, or the
`assert len(self._posdict) > 0 and len(self._negdict) > 0` failing. -/
inductive ConstructError
  | load (e : LoadError)
  | assertionError
deriving DecidableEq

/-- `BaseDict.__init__` (tokenizer aside): run `init_dict`, then assert both
count tables are non-empty. -/
def construct (file : Option (List String)) : Except ConstructError DictState :=
  match init_dict file with
  | .error e => .error (.load e)
  | .ok st =>
    if 0 < st.posdict.length ∧ 0 < st.negdict.length then .ok st
    else .error .assertionError

/-- The `word` column of a lexicon line (`word[0]` after the comma split). -/
def lineWord (l : String) : String := (splitComma l).headD ""

/-- The parsed `polarity_class` column of a line (`float(word[1].strip())`). -/
def lineClass (l : String) : Option ℚ :=
  match (splitComma l)[1]? with
  | none => none
  | some f => pyFloat (pyStrip f)

/-- The parsed `polarity_score` column of a line (`float(word[2].strip())`). -/
def lineScore (l : String) : Option ℚ :=
  match (splitComma l)[2]? with
  | none => none
  | some f => pyFloat (pyStrip f)

/-! ### Helper lemmas about the score lists -/

/-- The strictly positive and the strictly negative entries of a list of
rationals together are exactly its nonzero entries. -/
lemma length_filter_pos_add_neg (l : List ℚ) :
    (l.filter (fun s => decide (0 < s))).length + (l.filter (fun s => decide (s < 0))).length
      = (l.filter (fun s => decide (s ≠ 0))).length := by
  induction l with
  | nil => rfl
  | cons x xs ih =>
    rcases lt_trichotomy (0 : ℚ) x with hx | hx | hx
    · simp only [List.filter_cons, decide_eq_true_eq]
      rw [if_pos hx, if_neg (not_lt.mpr hx.le), if_pos hx.ne']
      simp only [List.length_cons]
      omega
    · simp only [List.filter_cons, decide_eq_true_eq]
      rw [if_neg (by rw [← hx]; exact lt_irrefl 0), if_neg (by rw [← hx]; exact lt_irrefl 0),
        if_neg (by rw [← hx]; exact fun h => h rfl)]
      exact ih
    · simp only [List.filter_cons, decide_eq_true_eq]
      rw [if_neg (not_lt.mpr hx.le), if_pos hx, if_pos hx.ne]
      simp only [List.length_cons]
      omega

lemma sum_filter_pos_nonneg (l : List ℚ) : 0 ≤ (l.filter (fun s => decide (0 < s))).sum := by
  apply List.sum_nonneg
  intro x hx
  exact (of_decide_eq_true (List.mem_filter.mp hx).2).le

lemma sum_filter_neg_nonpos (l : List ℚ) : (l.filter (fun s => decide (s < 0))).sum ≤ 0 := by
  induction l with
  | nil => simp
  | cons x xs ih =>
    rw [List.filter_cons]
    by_cases hx : x < 0
    · rw [if_pos (by simpa using hx), List.sum_cons]
      linarith
    · rw [if_neg (by simpa using hx)]
      exact ih

end Ekonlpy

namespace Ekonlpy

lemma lookupT_nil (t : String) : lookupT [] t = none := rfl

lemma lookupT_cons (k : String) (v : ℚ) (rest : Table) (t : String) :
    lookupT ((k, v) :: rest) t = if t = k then some v else lookupT rest t := rfl

lemma loadLine_header (st : DictState) (l : String) (hW : lineWord l = "word") :
    loadLine st l = .ok st := by
  unfold lineWord at hW
  simp only [loadLine]
  rw [if_pos hW]

lemma loadLine_field1_bad (st : DictState) (l f : String) (hW : lineWord l ≠ "word")
    (h1 : (splitComma l)[1]? = some f) (h2 : pyFloat (pyStrip f) = none) :
    loadLine st l = .error .parseError := by
  unfold lineWord at hW
  simp only [loadLine]
  rw [if_neg hW, h1]
  simp only [h2]

lemma loadLine_field2_bad (st : DictState) (l : String) (p : ℚ) (f : String)
    (hW : lineWord l ≠ "word") (hc : lineClass l = some p)
    (h2 : (splitComma l)[2]? = some f) (h3 : pyFloat (pyStrip f) = none) :
    loadLine st l = .error .parseError := by
  unfold lineWord at hW
  unfold lineClass at hc
  cases h1 : (splitComma l)[1]? with
  | none => rw [h1] at hc; exact absurd hc (by simp)
  | some f1 =>
    rw [h1] at hc
    simp only [loadLine]
    rw [if_neg hW, h1, h2]
    simp only [h3]
    cases pyFloat (pyStrip f1) <;> rfl

lemma loadLine_posdict (st st' : DictState) (l : String) (h : loadLine st l = .ok st')
    (w : String) (v : ℚ) (hv : lookupT st'.posdict w = some v) :
    lookupT st.posdict w = some v
      ∨ (lineWord l = w ∧ v = 1 ∧ ∃ p, lineClass l = some p ∧ 0 < p) := by
  simp only [loadLine] at h
  split at h
  · cases h; exact .inl hv
  · split at h
    · exact Except.noConfusion h
    · rename_i f1 h1
      split at h
      · exact Except.noConfusion h
      · rename_i p hp1
        split at h
        · exact Except.noConfusion h
        · rename_i f2 hf2
          split at h
          · exact Except.noConfusion h
          · rename_i s hs2
            cases h
            by_cases hl : ((splitComma l).headD "").length > 1
            · rw [if_pos hl] at hv
              dsimp only at hv
              by_cases hp : 0 < p
              · rw [if_pos hp, lookupT_cons] at hv
                by_cases hw : w = (splitComma l).headD ""
                · rw [if_pos hw] at hv
                  refine .inr ⟨hw.symm, by injection hv with hv; exact hv.symm, p, ?_, hp⟩
                  unfold lineClass
                  rw [h1]
                  exact hp1
                · rw [if_neg hw] at hv
                  exact .inl hv
              · rw [if_neg hp] at hv
                exact .inl hv
            · rw [if_neg hl] at hv
              exact .inl hv


lemma loadLine_negdict (st st' : DictState) (l : String) (h : loadLine st l = .ok st')
    (w : String) (v : ℚ) (hv : lookupT st'.negdict w = some v) :
    lookupT st.negdict w = some v
      ∨ (lineWord l = w ∧ v = -1 ∧ ∃ p, lineClass l = some p ∧ p < 0) := by
  simp only [loadLine] at h
  split at h
  · cases h; exact .inl hv
  · split at h
    · exact Except.noConfusion h
    · rename_i f1 h1
      split at h
      · exact Except.noConfusion h
      · rename_i p hp1
        split at h
        · exact Except.noConfusion h
        · rename_i f2 hf2
          split at h
          · exact Except.noConfusion h
          · rename_i s hs2
            cases h
            by_cases hl : ((splitComma l).headD "").length > 1
            · rw [if_pos hl] at hv
              dsimp only at hv
              by_cases hp : 0 < p
              · rw [if_pos hp] at hv
                exact .inl hv
              · rw [if_neg hp] at hv
                by_cases hpn : p < 0
                · rw [if_pos hpn, lookupT_cons] at hv
                  by_cases hw : w = (splitComma l).headD ""
                  · rw [if_pos hw] at hv
                    refine .inr ⟨hw.symm, by injection hv with hv; exact hv.symm, p, ?_, hpn⟩
                    unfold lineClass
                    rw [h1]
                    exact hp1
                  · rw [if_neg hw] at hv
                    exact .inl hv
                · rw [if_neg hpn] at hv
                  exact .inl hv
            · rw [if_neg hl] at hv
              exact .inl hv

lemma loadLine_poldict (st st' : DictState) (l : String) (h : loadLine st l = .ok st')
    (w : String) (v : ℚ) (hv : lookupT st'.poldict w = some v) :
    lookupT st.poldict w = some v ∨ (lineWord l = w ∧ lineScore l = some v) := by
  simp only [loadLine] at h
  split at h
  · cases h; exact .inl hv
  · split at h
    · exact Except.noConfusion h
    · rename_i f1 h1
      split at h
      · exact Except.noConfusion h
      · rename_i p hp1
        split at h
        · exact Except.noConfusion h
        · rename_i f2 hf2
          split at h
          · exact Except.noConfusion h
          · rename_i s hs2
            cases h
            by_cases hl : ((splitComma l).headD "").length > 1
            · rw [if_pos hl] at hv
              dsimp only at hv
              rw [lookupT_cons] at hv
              by_cases hw : w = (splitComma l).headD ""
              · rw [if_pos hw] at hv
                refine .inr ⟨hw.symm, ?_⟩
                unfold lineScore
                rw [hf2]
                show pyFloat (pyStrip f2) = some v
                rw [hs2]
                injection hv with hv
                rw [hv]
              · rw [if_neg hw] at hv
                exact .inl hv
            · rw [if_neg hl] at hv
              exact .inl hv

lemma loadLines_posdict (L : List String) : ∀ (st st' : DictState),
    loadLines st L = .ok st' → ∀ (w : String) (v : ℚ), lookupT st'.posdict w = some v →
    lookupT st.posdict w = some v
      ∨ ∃ l ∈ L, lineWord l = w ∧ v = 1 ∧ ∃ p, lineClass l = some p ∧ 0 < p := by
  induction L with
  | nil =>
    intro st st' h w v hv
    simp only [loadLines] at h
    cases h
    exact .inl hv
  | cons l rest ih =>
    intro st st' h w v hv
    simp only [loadLines] at h
    cases hl : loadLine st l with
    | error e => rw [hl] at h; exact Except.noConfusion h
    | ok st1 =>
      rw [hl] at h
      rcases ih st1 st' h w v hv with h1 | ⟨l', hl', hrest⟩
      · rcases loadLine_posdict st st1 l hl w v h1 with h2 | h3
        · exact .inl h2
        · exact .inr ⟨l, List.mem_cons_self l rest, h3⟩
      · exact .inr ⟨l', List.mem_cons_of_mem l hl', hrest⟩

lemma loadLines_negdict (L : List String) : ∀ (st st' : DictState),
    loadLines st L = .ok st' → ∀ (w : String) (v : ℚ), lookupT st'.negdict w = some v →
    lookupT st.negdict w = some v
      ∨ ∃ l ∈ L, lineWord l = w ∧ v = -1 ∧ ∃ p, lineClass l = some p ∧ p < 0 := by
  induction L with
  | nil =>
    intro st st' h w v hv
    simp only [loadLines] at h
    cases h
    exact .inl hv
  | cons l rest ih =>
    intro st st' h w v hv
    simp only [loadLines] at h
    cases hl : loadLine st l with
    | error e => rw [hl] at h; exact Except.noConfusion h
    | ok st1 =>
      rw [hl] at h
      rcases ih st1 st' h w v hv with h1 | ⟨l', hl', hrest⟩
      · rcases loadLine_negdict st st1 l hl w v h1 with h2 | h3
        · exact .inl h2
        · exact .inr ⟨l, List.mem_cons_self l rest, h3⟩
      · exact .inr ⟨l', List.mem_cons_of_mem l hl', hrest⟩

lemma loadLines_poldict (L : List String) : ∀ (st st' : DictState),
    loadLines st L = .ok st' → ∀ (w : String) (v : ℚ), lookupT st'.poldict w = some v →
    lookupT st.poldict w = some v ∨ ∃ l ∈ L, lineWord l = w ∧ lineScore l = some v := by
  induction L with
  | nil =>
    intro st st' h w v hv
    simp only [loadLines] at h
    cases h
    exact .inl hv
  | cons l rest ih =>
    intro st st' h w v hv
    simp only [loadLines] at h
    cases hl : loadLine st l with
    | error e => rw [hl] at h; exact Except.noConfusion h
    | ok st1 =>
      rw [hl] at h
      rcases ih st1 st' h w v hv with h1 | ⟨l', hl', hrest⟩
      · rcases loadLine_poldict st st1 l hl w v h1 with h2 | h3
        · exact .inl h2
        · exact .inr ⟨l, List.mem_cons_self l rest, h3⟩
      · exact .inr ⟨l', List.mem_cons_of_mem l hl', hrest⟩

lemma init_dict_posdict (L : List String) (st : DictState)
    (h : init_dict (some L) = .ok st) (w : String) (v : ℚ)
    (hv : lookupT st.posdict w = some v) :
    ∃ l ∈ L, lineWord l = w ∧ v = 1 ∧ ∃ p, lineClass l = some p ∧ 0 < p := by
  rcases loadLines_posdict L initState st h w v hv with h1 | h2
  · exact absurd h1 (by simp [initState, lookupT])
  · exact h2

lemma init_dict_negdict (L : List String) (st : DictState)
    (h : init_dict (some L) = .ok st) (w : String) (v : ℚ)
    (hv : lookupT st.negdict w = some v) :
    ∃ l ∈ L, lineWord l = w ∧ v = -1 ∧ ∃ p, lineClass l = some p ∧ p < 0 := by
  rcases loadLines_negdict L initState st h w v hv with h1 | h2
  · exact absurd h1 (by simp [initState, lookupT])
  · exact h2

lemma init_dict_poldict (L : List String) (st : DictState)
    (h : init_dict (some L) = .ok st) (w : String) (v : ℚ)
    (hv : lookupT st.poldict w = some v) :
    ∃ l ∈ L, lineWord l = w ∧ lineScore l = some v := by
  rcases loadLines_poldict L initState st h w v hv with h1 | h2
  · exact absurd h1 (by simp [initState, lookupT])
  · exact h2

/-! ### The claims -/

/-- C1: for every list of terms and either mode, `get_score` returns
Positive = the sum of the strictly positive per-token scores, Negative =
the sum of the strictly negative per-token scores, Polarity =
(Positive + Negative) / (D + 1e-6) where D = Positive − Negative in count
mode and D = the number of input tokens in polarity mode, and
Subjectivity = (number of tokens with a nonzero per-token score) /
(number of tokens + 1e-6). -/
theorem get_score_formula (st : DictState) (terms : List String) (b : Bool) :
    get_score st terms b =
      { Positive := ((terms.map (fun t => get_score_term st t b)).filter
            (fun s => decide (0 < s))).sum
        Negative := ((terms.map (fun t => get_score_term st t b)).filter
            (fun s => decide (s < 0))).sum
        Polarity := (((terms.map (fun t => get_score_term st t b)).filter
              (fun s => decide (0 < s))).sum
            + ((terms.map (fun t => get_score_term st t b)).filter
              (fun s => decide (s < 0))).sum)
            / ((if b then
                  ((terms.map (fun t => get_score_term st t b)).filter
                    (fun s => decide (0 < s))).sum
                  - ((terms.map (fun t => get_score_term st t b)).filter
                    (fun s => decide (s < 0))).sum
                else (terms.length : ℚ)) + 1 / 1000000)
        Subjectivity := (((terms.map (fun t => get_score_term st t b)).filter
              (fun s => decide (s ≠ 0))).length : ℚ)
            / ((terms.length : ℚ) + 1 / 1000000) } := by
  unfold get_score
  simp only [Scores.mk.injEq, List.length_map]
  refine ⟨trivial, trivial, ?_, ?_⟩
  · rw [show EPSILON = 1 / 1000000 from rfl]
  · rw [show EPSILON = 1 / 1000000 from rfl, ← length_filter_pos_add_neg]
    push_cast
    ring

/-- C9: on the empty token list both modes return all four scores equal to 0. -/
theorem get_score_empty (st : DictState) (b : Bool) :
    get_score st [] b = { Positive := 0, Negative := 0, Polarity := 0, Subjectivity := 0 } := by
  cases b <;> simp [get_score, EPSILON]

/-! ### Concrete lexicon fixtures -/

def dupLexicon : List String := ["ab,1,0.5", "ab,-1,0.3"]

def dupState : DictState :=
  ⟨[("ab", 1)], [("ab", -1)], [("ab", mkRat 3 10), ("ab", mkRat 1 2)]⟩

def witnessLexicon : List String := ["ab,1,0.5", "cd,-1,0.3"]

def wState : DictState :=
  ⟨[("ab", 1)], [("cd", -1)], [("cd", mkRat 3 10), ("ab", mkRat 1 2)]⟩

def bigLexicon : List String := ["ab,1,5"]

def bigState : DictState := ⟨[("ab", 1)], [], [("ab", 5)]⟩

def shortLineState : DictState := ⟨[("ab", 1)], [("cd", -1)], [("ab", mkRat 1 2)]⟩

def shortLineLoaded : DictState :=
  match loadLine shortLineState "x,1,0.5" with
  | .ok st => st
  | .error _ => initState

/-! ### More arithmetic helpers -/

lemma EPSILON_pos : 0 < EPSILON := by norm_num [EPSILON]

lemma sum_le_length_of_le_one (l : List ℚ) (h : ∀ x ∈ l, x ≤ 1) :
    l.sum ≤ (l.length : ℚ) := by
  have h1 := List.sum_le_card_nsmul l 1 h
  simpa using h1

lemma neg_length_le_sum (l : List ℚ) (h : ∀ x ∈ l, -1 ≤ x) :
    -(l.length : ℚ) ≤ l.sum := by
  have h1 := List.card_nsmul_le_sum l (-1) h
  simpa [nsmul_eq_mul] using h1

lemma subjectivity_bounds_generic (l : List ℚ) :
    0 ≤ (((l.filter (fun s => decide (0 < s))).length : ℚ)
        + ((l.filter (fun s => decide (s < 0))).length : ℚ)) / ((l.length : ℚ) + EPSILON)
    ∧ (((l.filter (fun s => decide (0 < s))).length : ℚ)
        + ((l.filter (fun s => decide (s < 0))).length : ℚ)) / ((l.length : ℚ) + EPSILON) ≤ 1 := by
  have hε := EPSILON_pos
  have h0 : (0 : ℚ) ≤ (l.length : ℚ) := Nat.cast_nonneg _
  have hd : 0 < (l.length : ℚ) + EPSILON := by linarith
  have hlen : (l.filter (fun s => decide (0 < s))).length
      + (l.filter (fun s => decide (s < 0))).length ≤ l.length := by
    rw [length_filter_pos_add_neg]
    exact List.length_filter_le _ _
  have hlenQ : ((l.filter (fun s => decide (0 < s))).length : ℚ)
      + ((l.filter (fun s => decide (s < 0))).length : ℚ) ≤ (l.length : ℚ) := by
    exact_mod_cast hlen
  constructor
  · apply div_nonneg _ hd.le
    positivity
  · rw [div_le_one hd]
    linarith

lemma count_polarity_bounds (l : List ℚ) :
    -1 ≤ ((l.filter (fun s => decide (0 < s))).sum + (l.filter (fun s => decide (s < 0))).sum)
        / (((l.filter (fun s => decide (0 < s))).sum
            - (l.filter (fun s => decide (s < 0))).sum) + EPSILON)
    ∧ ((l.filter (fun s => decide (0 < s))).sum + (l.filter (fun s => decide (s < 0))).sum)
        / (((l.filter (fun s => decide (0 < s))).sum
            - (l.filter (fun s => decide (s < 0))).sum) + EPSILON) ≤ 1 := by
  have hε := EPSILON_pos
  have hP0 := sum_filter_pos_nonneg l
  have hN0 := sum_filter_neg_nonpos l
  have hd : 0 < ((l.filter (fun s => decide (0 < s))).sum
      - (l.filter (fun s => decide (s < 0))).sum) + EPSILON := by linarith
  constructor
  · rw [le_div_iff₀ hd]
    linarith
  · rw [div_le_one hd]
    linarith

lemma polarity_bounds_of_abs_le (l : List ℚ) (h : ∀ x ∈ l, |x| ≤ 1) :
    -1 ≤ ((l.filter (fun s => decide (0 < s))).sum + (l.filter (fun s => decide (s < 0))).sum)
        / ((l.length : ℚ) + EPSILON)
    ∧ ((l.filter (fun s => decide (0 < s))).sum + (l.filter (fun s => decide (s < 0))).sum)
        / ((l.length : ℚ) + EPSILON) ≤ 1 := by
  have hε := EPSILON_pos
  have hP0 := sum_filter_pos_nonneg l
  have hN0 := sum_filter_neg_nonpos l
  have hP : (l.filter (fun s => decide (0 < s))).sum
      ≤ ((l.filter (fun s => decide (0 < s))).length : ℚ) :=
    sum_le_length_of_le_one _ (fun x hx => (abs_le.mp (h x (List.mem_filter.mp hx).1)).2)
  have hN : -(((l.filter (fun s => decide (s < 0))).length : ℚ))
      ≤ (l.filter (fun s => decide (s < 0))).sum :=
    neg_length_le_sum _ (fun x hx => (abs_le.mp (h x (List.mem_filter.mp hx).1)).1)
  have hlen : (l.filter (fun s => decide (0 < s))).length
      + (l.filter (fun s => decide (s < 0))).length ≤ l.length := by
    rw [length_filter_pos_add_neg]
    exact List.length_filter_le _ _
  have hlenQ : ((l.filter (fun s => decide (0 < s))).length : ℚ)
      + ((l.filter (fun s => decide (s < 0))).length : ℚ) ≤ (l.length : ℚ) := by
    exact_mod_cast hlen
  have c1 : (0 : ℚ) ≤ ((l.filter (fun s => decide (0 < s))).length : ℚ) := Nat.cast_nonneg _
  have c2 : (0 : ℚ) ≤ ((l.filter (fun s => decide (s < 0))).length : ℚ) := Nat.cast_nonneg _
  have hd : 0 < (l.length : ℚ) + EPSILON := by
    have h0 : (0 : ℚ) ≤ (l.length : ℚ) := Nat.cast_nonneg _
    linarith
  constructor
  · rw [le_div_iff₀ hd]
    linarith
  · rw [div_le_one hd]
    linarith


/-- C2 (counterexample): loading a lexicon in which the word `ab` has one
record with positive class and one with negative class puts `ab` in the
negative table, yet `_get_score(ab, by_count=True)` is not −1. -/
theorem negset_score_counterexample :
    init_dict (some dupLexicon) = .ok dupState
      ∧ (lookupT dupState.negdict "ab").isSome = true
      ∧ get_score_term dupState "ab" true ≠ -1 :=
  ⟨by decide, by decide, by decide⟩

/-- C2 (amended): after a successful `init_dict` load, a term in no table
scores 0 in both modes; a term in the positive table scores +1 in count
mode; a term in the negative table and not in the positive table scores −1
in count mode; and a term in the polarity table scores its stored value in
polarity mode. -/
theorem get_score_term_values (file : Option (List String)) (st : DictState)
    (h : init_dict file = .ok st) :
    (∀ t, lookupT st.posdict t = none → lookupT st.negdict t = none →
        lookupT st.poldict t = none →
        get_score_term st t true = 0 ∧ get_score_term st t false = 0)
    ∧ (∀ t, (lookupT st.posdict t).isSome = true → get_score_term st t true = 1)
    ∧ (∀ t, lookupT st.posdict t = none → (lookupT st.negdict t).isSome = true →
        get_score_term st t true = -1)
    ∧ (∀ t v, lookupT st.poldict t = some v → get_score_term st t false = v) := by
  cases file with
  | none => exact absurd h (by simp [init_dict])
  | some L =>
    refine ⟨?_, ?_, ?_, ?_⟩
    · intro t h1 h2 h3
      exact ⟨by simp [get_score_term, h1, h2], by simp [get_score_term, h3]⟩
    · intro t hp
      rcases Option.isSome_iff_exists.mp hp with ⟨v, hv⟩
      obtain ⟨l, -, -, hv1, -⟩ := init_dict_posdict L st h t v hv
      subst hv1
      simp [get_score_term, hv]
    · intro t h1 hn
      rcases Option.isSome_iff_exists.mp hn with ⟨v, hv⟩
      obtain ⟨l, -, -, hv1, -⟩ := init_dict_negdict L st h t v hv
      subst hv1
      simp [get_score_term, h1, hv]
    · intro t v hv
      simp [get_score_term, hv]

/-- C2 (witness): on the two-line lexicon `witnessLexicon` the four amended
clauses hold at concrete terms. -/
theorem get_score_term_values_witness :
    (get_score_term wState "zz" true = 0 ∧ get_score_term wState "zz" false = 0)
    ∧ get_score_term wState "ab" true = 1
    ∧ get_score_term wState "cd" true = -1
    ∧ get_score_term wState "cd" false = mkRat 3 10 := by
  have h := get_score_term_values (some witnessLexicon) wState (by decide)
  exact ⟨h.1 "zz" (by decide) (by decide) (by decide),
    h.2.1 "ab" (by decide),
    h.2.2.1 "cd" (by decide) (by decide),
    h.2.2.2 "cd" (mkRat 3 10) (by decide)⟩

/-- C3 (counterexample): the record `x,zz,0.5` has a one-character word, so
the length filter discards it, yet the load aborts with a parsing error:
numeric parsing happens before the length filter. -/
theorem length_filtered_parse_error :
    (lineWord "x,zz,0.5").length ≤ 1
      ∧ init_dict (some ["x,zz,0.5"]) = .error .parseError :=
  ⟨by decide, by decide⟩

/-- C3 (amended): a missing lexicon file aborts the load with a not-found
error; a record skipped by the header filter causes no numeric parsing; and
a malformed `polarity_class` or `polarity_score` field in any non-header
record — including records the length filter would discard — aborts the
load with a parsing error. -/
theorem load_error_behavior :
    init_dict none = .error .fileNotFound
    ∧ (∀ st l rest, lineWord l = "word" →
        loadLines st (l :: rest) = loadLines st rest)
    ∧ (∀ st l rest f, lineWord l ≠ "word" → (splitComma l)[1]? = some f →
        pyFloat (pyStrip f) = none →
        loadLines st (l :: rest) = .error .parseError)
    ∧ (∀ st l rest p f, lineWord l ≠ "word" → lineClass l = some p →
        (splitComma l)[2]? = some f → pyFloat (pyStrip f) = none →
        loadLines st (l :: rest) = .error .parseError) := by
  refine ⟨rfl, ?_, ?_, ?_⟩
  · intro st l rest hW
    simp only [loadLines]
    rw [loadLine_header st l hW]
  · intro st l rest f hW h1 h2
    simp only [loadLines]
    rw [loadLine_field1_bad st l f hW h1 h2]
  · intro st l rest p f hW hc h2 h3
    simp only [loadLines]
    rw [loadLine_field2_bad st l p f hW hc h2 h3]

/-- C3 (witness): concrete instances of the amended clauses: a header line
is skipped, and malformed class or score fields abort with a parse error
even alongside further lines. -/
theorem load_error_behavior_witness :
    loadLines initState ["word,a,b", "ab,1,2"] = loadLines initState ["ab,1,2"]
    ∧ loadLines initState ["ab,zz,2", "cd,1,2"] = .error .parseError
    ∧ loadLines initState ["ab,1,zz", "cd,1,2"] = .error .parseError := by
  refine ⟨?_, ?_, ?_⟩
  · exact load_error_behavior.2.1 initState "word,a,b" ["ab,1,2"] (by decide)
  · exact load_error_behavior.2.2.1 initState "ab,zz,2" ["cd,1,2"] "zz" (by decide)
      (by decide) (by decide)
  · exact load_error_behavior.2.2.2 initState "ab,1,zz" ["cd,1,2"] 1 "zz" (by decide)
      (by decide) (by decide) (by decide)

/-- C4 (counterexample): after loading `dupLexicon` the word `ab` is a key
of both the positive and the negative table, so the two tables are not
disjoint for every lexicon file content. -/
theorem disjoint_counterexample :
    init_dict (some dupLexicon) = .ok dupState
      ∧ (lookupT dupState.posdict "ab").isSome = true
      ∧ (lookupT dupState.negdict "ab").isSome = true :=
  ⟨by decide, by decide, by decide⟩

/-- C4 (amended): if no two lines of the lexicon file share a word, then
after construction the positive and negative tables are disjoint. -/
theorem disjoint_of_nodup_words (L : List String) (st : DictState)
    (hnd : (L.map lineWord).Nodup) (h : init_dict (some L) = .ok st) (w : String) :
    ¬((lookupT st.posdict w).isSome = true ∧ (lookupT st.negdict w).isSome = true) := by
  rintro ⟨hp, hn⟩
  rcases Option.isSome_iff_exists.mp hp with ⟨vp, hvp⟩
  rcases Option.isSome_iff_exists.mp hn with ⟨vn, hvn⟩
  obtain ⟨l1, hl1, hw1, -, p1, hc1, hp1⟩ := init_dict_posdict L st h w vp hvp
  obtain ⟨l2, hl2, hw2, -, p2, hc2, hp2⟩ := init_dict_negdict L st h w vn hvn
  have heq : l1 = l2 := List.inj_on_of_nodup_map hnd hl1 hl2 (hw1.trans hw2.symm)
  subst heq
  rw [hc1] at hc2
  injection hc2 with hc2
  subst hc2
  exact absurd hp1 (not_lt.mpr hp2.le)

/-- C4 (witness): on `witnessLexicon`, whose two words differ, no term is in
both count tables. -/
theorem disjoint_of_nodup_words_witness :
    ¬((lookupT wState.posdict "ab").isSome = true
      ∧ (lookupT wState.negdict "ab").isSome = true) :=
  disjoint_of_nodup_words witnessLexicon wState (by decide) (by decide) "ab"

/-- C5 (counterexample): a lexicon polarity score larger than 1 (here 5)
makes by-polarity Polarity exceed 1 even though the input has a
sentiment-bearing token. -/
theorem polarity_bound_counterexample :
    init_dict (some bigLexicon) = .ok bigState
      ∧ get_score_term bigState "ab" false ≠ 0
      ∧ 2 < (get_score bigState ["ab"] false).Polarity := by
  refine ⟨by decide, by decide, ?_⟩
  norm_num [get_score, get_score_term, lookupT, EPSILON, bigState]

/-- C5 (amended): Subjectivity always lies in [0, 1]; Polarity lies in
[−1, 1] in count mode for every input, and in polarity mode for every input
whose per-token scores all have absolute value at most 1. -/
theorem polarity_subjectivity_bounds (st : DictState) (terms : List String) :
    (∀ b, 0 ≤ (get_score st terms b).Subjectivity
        ∧ (get_score st terms b).Subjectivity ≤ 1)
    ∧ (-1 ≤ (get_score st terms true).Polarity ∧ (get_score st terms true).Polarity ≤ 1)
    ∧ ((∀ t ∈ terms, |get_score_term st t false| ≤ 1) →
        -1 ≤ (get_score st terms false).Polarity
          ∧ (get_score st terms false).Polarity ≤ 1) := by
  refine ⟨?_, ?_, ?_⟩
  · intro b
    exact subjectivity_bounds_generic (terms.map (fun t => get_score_term st t b))
  · exact count_polarity_bounds (terms.map (fun t => get_score_term st t true))
  · intro habs
    refine polarity_bounds_of_abs_le (terms.map (fun t => get_score_term st t false)) ?_
    intro x hx
    rcases List.mem_map.mp hx with ⟨t, ht, rfl⟩
    exact habs t ht

/-- C5 (witness): the bounds instantiated on the empty dictionary and a
one-token input, whose per-token scores are all 0. -/
theorem polarity_subjectivity_bounds_witness :
    -1 ≤ (get_score initState ["ab"] false).Polarity
      ∧ (get_score initState ["ab"] false).Polarity ≤ 1 :=
  (polarity_subjectivity_bounds initState ["ab"]).2.2 (by
    intro t ht
    norm_num [get_score_term, initState, lookupT])

/-- C6: every word in the polarity table after `init_dict` is retrievable
via `_get_score(word, by_count=False)`, which returns exactly the parsed
`polarity_score` float of one of that word's lexicon records. -/
theorem poldict_round_trip (L : List String) (st : DictState)
    (h : init_dict (some L) = .ok st) (w : String) (v : ℚ)
    (hv : lookupT st.poldict w = some v) :
    get_score_term st w false = v
      ∧ ∃ l ∈ L, lineWord l = w ∧ lineScore l = some v :=
  ⟨by simp [get_score_term, hv], init_dict_poldict L st h w v hv⟩

/-- C6 (witness): on `witnessLexicon` the word `cd` round-trips to its parsed
score 0.3. -/
theorem poldict_round_trip_witness :
    get_score_term wState "cd" false = mkRat 3 10 :=
  (poldict_round_trip witnessLexicon wState (by decide) "cd" (mkRat 3 10) (by decide)).1

/-- C7: a lexicon record whose word has length at most one character leaves
all three tables exactly as they were (when it does not abort the load). -/
theorem short_word_not_added (l : String) (st st' : DictState)
    (hlen : (lineWord l).length ≤ 1) (h : loadLine st l = .ok st') :
    st' = st := by
  unfold lineWord at hlen
  simp only [loadLine] at h
  split at h
  · cases h; rfl
  · split at h
    · exact Except.noConfusion h
    · split at h
      · exact Except.noConfusion h
      · split at h
        · exact Except.noConfusion h
        · split at h
          · exact Except.noConfusion h
          · rw [if_neg (not_lt.mpr hlen)] at h
            cases h
            rfl

/-- C7 (witness): processing the record `x,1,0.5` on a non-trivial state
returns that state unchanged. -/
theorem short_word_not_added_witness : shortLineLoaded = shortLineState :=
  short_word_not_added "x,1,0.5" shortLineState shortLineLoaded (by decide) (by decide)

/-- C8: `__init__` never returns a dictionary with an empty positive or
negative table: a successful construction has both tables non-empty, and if
the load leaves either table empty the assertion fails. -/
theorem construct_nonempty (file : Option (List String)) :
    (∀ st, construct file = .ok st → st.posdict ≠ [] ∧ st.negdict ≠ [])
    ∧ (∀ st, init_dict file = .ok st → st.posdict = [] ∨ st.negdict = [] →
        construct file = .error .assertionError) := by
  constructor
  · intro st h
    unfold construct at h
    split at h
    · exact Except.noConfusion h
    · split at h
      · rename_i st0 heq hc
        injection h with h
        subst h
        exact ⟨List.length_pos.mp hc.1, List.length_pos.mp hc.2⟩
      · exact Except.noConfusion h
  · intro st h hor
    unfold construct
    rw [h]
    show (if 0 < st.posdict.length ∧ 0 < st.negdict.length then Except.ok st
        else Except.error ConstructError.assertionError)
      = Except.error ConstructError.assertionError
    rw [if_neg]
    rintro ⟨h1, h2⟩
    cases hor with
    | inl h0 => rw [h0] at h1; exact absurd h1 (by simp)
    | inr h0 => rw [h0] at h2; exact absurd h2 (by simp)

/-- C8 (witness): a successful construction from `witnessLexicon` has both
count tables non-empty, and the one-line lexicon `bigLexicon`, which loads
no negative word, makes construction fail the assertion. -/
theorem construct_nonempty_witness :
    (wState.posdict ≠ [] ∧ wState.negdict ≠ [])
    ∧ construct (some bigLexicon) = .error .assertionError := by
  constructor
  · exact (construct_nonempty (some witnessLexicon)).1 wState (by decide)
  · exact (construct_nonempty (some bigLexicon)).2 bigState (by decide) (.inr (by decide))

/-- C10: when a term is a key of both count tables, `_get_score` in count
mode returns the positive table's value, which after `init_dict` is +1: the
positive lookup takes precedence. -/
theorem posdict_precedence (L : List String) (st : DictState)
    (h : init_dict (some L) = .ok st) (t : String) (v : ℚ)
    (hp : lookupT st.posdict t = some v) (_hn : (lookupT st.negdict t).isSome = true) :
    get_score_term st t true = v ∧ v = 1 := by
  obtain ⟨l, -, -, hv1, -⟩ := init_dict_posdict L st h t v hp
  exact ⟨by simp [get_score_term, hp], hv1⟩

/-- C10 (witness): on `dupLexicon` the word `ab` is in both tables and
scores +1 in count mode. -/
theorem posdict_precedence_witness : get_score_term dupState "ab" true = 1 :=
  (posdict_precedence dupLexicon dupState (by decide) "ab" 1 (by decide) (by decide)).1

end Ekonlpy
